import Mathlib

/-!
Verification development for the webpackbar progress-reporting engine.

The repository consists of two JavaScript source files:
* src/utils.js - pure helpers: renderBar, parseRequest, formatRequest,
  formatStats, ellipsis and ellipsisLeft;
* the plugin controller file - the shared progress state, the
  WebpackBarPlugin class with its updateProgress state machine and the
  cross-instance completion hook.

This file gives a shallow embedding of those functions in Lean and proves
properties about them.  JavaScript strings are modelled as Lean strings
(all inputs considered here are ASCII, where JS code-unit length and Lean
character length agree); JS arrays as lists; null and undefined as none;
JS machine floats appear only as exactly representable values (multiples
of 0.25, integers), so they are modelled as rationals.  External library
calls (chalk, figures, lodash, Node path, log-update, consola) are
modelled by small Lean definitions documented at their declaration.
-/

/-! ## JavaScript string primitives -/

/-- Boolean test that the first list is a prefix of the second. -/
def startsWithList : List Char → List Char → Bool
  | [], _ => true
  | _ :: _, [] => false
  | p :: ps, c :: cs => p == c && startsWithList ps cs

/-- Index of the first occurrence of the pattern in the string, if any. -/
def findPat (pat s : List Char) : Option Nat :=
  (List.range (s.length + 1)).find? fun i => startsWithList pat (s.drop i)

/-- Fuel-driven worker for splitPat. -/
def splitPatAux (pat : List Char) : Nat → List Char → List (List Char)
  | 0, s => [s]
  | Nat.succ fuel, s =>
    match findPat pat s with
    | none => [s]
    | some i => s.take i :: splitPatAux pat fuel (s.drop (i + pat.length))

/-- Model of the JavaScript String.prototype.split with a non-empty string
separator: the list of chunks between occurrences of the pattern.  The fuel
argument of the worker strictly exceeds the length of the string, which is
enough for every non-empty pattern. -/
def splitPat (pat s : List Char) : List (List Char) :=
  splitPatAux pat (s.length + 1) s

/-- Embedding of removeAfter from src/utils.js: keep what stands before the
first occurrence of the delimiter (lodash first of the split). -/
def removeAfterL (delim s : List Char) : List Char :=
  (splitPat delim s).headD []

/-- Embedding of removeBefore from src/utils.js: keep what stands after the
last occurrence of the delimiter (lodash last of the split). -/
def removeBeforeL (delim s : List Char) : List Char :=
  (splitPat delim s).getLastD []

/-- Join a list of chunks with a separator, as the JavaScript
Array.prototype.join does. -/
def joinSepL (sep : List Char) : List (List Char) → List Char
  | [] => []
  | [x] => x
  | x :: y :: t => x ++ sep ++ joinSepL sep (y :: t)

/-- Join a list of strings with a separator, as the JavaScript
Array.prototype.join does. -/
def jsJoin (sep : String) : List String → String
  | [] => ""
  | [x] => x
  | x :: y :: t => x ++ sep ++ jsJoin sep (y :: t)

/-- Model of the JavaScript String.prototype.substr called with a single
start argument: a negative start counts from the end of the string and is
clamped at zero. -/
def jsSubstrFrom (s : String) (start : Int) : String :=
  let len : Int := s.length
  let idx : Int := if start < 0 then max (len + start) 0 else start
  String.mk (s.data.drop idx.toNat)

/-! ## src/utils.js : renderBar -/

/-- BAR_LENGTH constant of src/utils.js. -/
def BAR_LENGTH : Nat := 25

/-- BLOCK_CHAR constant of src/utils.js (the solid block glyph; BLOCK_CHAR2
in the source is the same glyph). -/
def BLOCK_CHAR : Char := '█'

/-- One terminal cell of the rendered bar: the chalk style applied and the
glyph printed.  Models the colored one-character string chalk produces. -/
structure BarCell where
  style : String
  glyph : Char
  deriving DecidableEq, Repr

/-- Embedding of colorize from src/utils.js.  In the source it returns a
chalk styling function: chalk.hex for a string starting with a hash, and a
named chalk style otherwise.  The model records the style by the color
string itself, which identifies it in all cases. -/
def colorize (color : String) : String := color

/-- The background cell chalk.white(BLOCK_CHAR) of renderBar. -/
def bgCell : BarCell := { style := "white", glyph := BLOCK_CHAR }

/-- The foreground cell colorize(color)(BLOCK_CHAR2) of renderBar. -/
def fgCell (color : String) : BarCell := { style := colorize color, glyph := BLOCK_CHAR }

/-- Embedding of renderBar from src/utils.js.  The source computes the
float w = progress * (BAR_LENGTH / 100) and maps i over range(BAR_LENGTH),
choosing the foreground cell when i < w.  For integer progress both sides
of the comparison are exactly representable doubles (w is a multiple of
1/4), so rational arithmetic models the float arithmetic exactly. -/
def renderBar (progress : Nat) (color : String) : List BarCell :=
  let w : ℚ := (progress : ℚ) * ((BAR_LENGTH : ℚ) / 100)
  let bg := bgCell
  let fg := fgCell color
  (List.range BAR_LENGTH).map fun (i : Nat) => if (i : ℚ) < w then fg else bg

/-- Number of foreground cells renderBar produces for a given progress:
the cells whose index satisfies the comparison against w. -/
def barFgCount (progress : Nat) : Nat :=
  (List.range BAR_LENGTH).countP fun (i : Nat) =>
    decide ((i : ℚ) < (progress : ℚ) * ((BAR_LENGTH : ℚ) / 100))

/-! ## src/utils.js : parseRequest -/

/-- Character class of the loader regex in src/utils.js, literally
[a-z0-9-@]. -/
def isClassChar (c : Char) : Bool :=
  (decide ('a' ≤ c) && decide (c ≤ 'z')) ||
  (decide ('0' ≤ c) && decide (c ≤ '9')) ||
  c == '-' || c == '@'

/-- The literal tail -loader of the loader regex. -/
def loaderLit : List Char := "-loader".data

/-- Match of the regex [a-z0-9-@]+-loader anchored at the head of the
string: the plus is greedy, consuming as many class characters as possible
and backtracking until the literal -loader matches right after, exactly as
the JavaScript regex engine does. -/
def matchAtPos (s : List Char) : Option (List Char) :=
  let q := (s.takeWhile isClassChar).length
  match (List.range q).reverse.find? fun pm1 =>
      startsWithList loaderLit (s.drop (pm1 + 1)) with
  | some pm1 => some (s.take (pm1 + 1 + loaderLit.length))
  | none => none

/-- Embedding of firstMatch(/[a-z0-9-@]+-loader/, str) from src/utils.js:
the leftmost match wins, and null is returned when there is none. -/
def firstMatchLoader : List Char → Option (List Char)
  | [] => none
  | c :: cs =>
    match matchAtPos (c :: cs) with
    | some m => some m
    | none => firstMatchLoader cs

/-- The nodeModules constant of src/utils.js.  The source builds it from
path.delimiter, the PATH environment separator, which is a colon on POSIX
(a semicolon on Windows); the POSIX value is modelled. -/
def nodeModulesDelim : List Char := ":node_modules:".data

/-- Model of the external Node call path.relative(process.cwd(), p) as it
is used by parseRequest: for a dot-free relative path p, resolving p
against the working directory and relativizing again returns p with empty
segments collapsed, and the empty path maps to the empty string. -/
def pathRelativeCwdL (p : List Char) : List Char :=
  joinSepL "/".data ((splitPat "/".data p).filter fun seg => seg != [])

/-- Result record of parseRequest, as described by the source. -/
structure ParsedRequest where
  file : Option String
  loaders : List String
  deriving DecidableEq, Repr

/-- Embedding of parseRequest from src/utils.js.  The input models the
JavaScript string-or-null-or-undefined argument; requestStr || yields the
empty string for none.  The string is split on exclamation marks, the last
chunk becomes the file (after removeBefore with the nodeModules delimiter,
removeAfter with the question mark, and path.relative against the working
directory; an empty result is null), and every earlier chunk is scanned
with the loader regex, dropping the chunks without a match. -/
def parseRequest (requestStr : Option String) : ParsedRequest :=
  let parts := splitPat "!".data (requestStr.getD "").data
  let fileRaw := parts.getLastD []
  let rest := parts.dropLast
  let fileStr := pathRelativeCwdL (removeAfterL "?".data (removeBeforeL nodeModulesDelim fileRaw))
  { file := if fileStr == [] then none else some (String.mk fileStr)
    loaders := rest.filterMap fun part =>
      match firstMatchLoader part with
      | some m => if m == [] then none else some (String.mk m)
      | none => none }

/-! ## src/utils.js : formatRequest -/

/-- The NEXT separator of src/utils.js: chalk.blue(figures(&#39;  ›  &#39;)).
The model keeps the three-character glyph and drops the ANSI styling. -/
def NEXT : String := " › "

/-- Interpolation of a JavaScript string-or-null value inside a template
literal: null is rendered as the four characters of the word null. -/
def jsTemplateOptStr : Option String → String
  | none => "null"
  | some s => s

/-- Embedding of formatRequest from src/utils.js.  The loaders are joined
with NEXT; when the joined string is empty the result is request.file || the
empty string, otherwise the joined loaders, NEXT and the interpolated file. -/
def formatRequest (request : ParsedRequest) : String :=
  let loaders := jsJoin NEXT request.loaders
  if loaders.length == 0 then
    request.file.getD ""
  else
    loaders ++ NEXT ++ jsTemplateOptStr request.file

/-! ## src/utils.js : ellipsisLeft -/

/-- Embedding of ellipsisLeft from src/utils.js.  The length comparison is
over the integers, as in JavaScript, where n - 3 may be negative. -/
def ellipsisLeft (str : String) (n : Nat) : String :=
  if (str.length : Int) ≤ (n : Int) - 3 then str
  else "..." ++ jsSubstrFrom str ((str.length : Int) - (n : Int) - 1)

/-! ## src/utils.js : formatStats -/

/-- JavaScript double restricted to the values formatStats manipulates:
finite values (exact rationals here; the inputs of formatStats are integer
hrtime components and counts, and the only operation applied is one
division, so no rounding is lost on the paths studied below), the two
infinities, and NaN. -/
inductive JsNum where
  | num (q : ℚ)
  | inf
  | ninf
  | nan
  deriving DecidableEq, Repr

/-- IEEE-754 division as JavaScript performs it, on the JsNum fragment:
division by zero yields NaN for a zero numerator and a signed infinity
otherwise; NaN propagates; a finite quotient is exact here. -/
def jsDiv : JsNum → JsNum → JsNum
  | JsNum.nan, _ => JsNum.nan
  | _, JsNum.nan => JsNum.nan
  | JsNum.num a, JsNum.num b =>
      if b = 0 then
        if a = 0 then JsNum.nan
        else if 0 < a then JsNum.inf else JsNum.ninf
      else JsNum.num (a / b)
  | JsNum.num _, JsNum.inf => JsNum.num 0
  | JsNum.num _, JsNum.ninf => JsNum.num 0
  | JsNum.inf, JsNum.num b => if 0 ≤ b then JsNum.inf else JsNum.ninf
  | JsNum.ninf, JsNum.num b => if 0 ≤ b then JsNum.ninf else JsNum.inf
  | JsNum.inf, _ => JsNum.nan
  | JsNum.ninf, _ => JsNum.nan

/-- ProfileRecord of the specification: the per-item statistics formatStats
receives.  count is a non-negative integer and time an hrtime pair of
non-negative integers (seconds, nanoseconds). -/
structure ProfileRecord where
  count : Nat
  time : Nat × Nat
  deriving DecidableEq, Repr

/-- One cell of the stats table, kept at the level of the data the source
hands to the external renderers: a plain string, a number, or an hrtime
value passed to the external pretty-time library.  The time constructor
records the exact numeric pair the source gives to prettyTime, so a NaN
produced upstream stays visible. -/
inductive Cell where
  | text (s : String)
  | natNum (n : Nat)
  | time (t : JsNum × JsNum)
  deriving DecidableEq, Repr

/-- Model of the external lodash startCase as used on the single-word
category names of this code base: the first character is capitalized. -/
def startCase (s : String) : String :=
  match s.data with
  | [] => ""
  | c :: cs => String.mk (c.toUpper :: cs)

/-- One rendered category table: the headline pushed into lines (ANSI bold
styling of the external chalk dropped) and the rows handed to the external
table library. -/
structure StatsTable where
  title : String
  rows : List (List Cell)
  deriving DecidableEq, Repr

/-- Embedding of formatStats from src/utils.js.  The mapping argument is an
association list, matching the Object.keys insertion order of JavaScript
objects with string keys; getDescription stands for the description module,
which is part of the repository but outside the sources given here, and is
therefore passed as a parameter.  Per item the source pushes the row
[item, count || a dash, prettyTime(time), prettyTime(avgTime), description]
where avgTime divides each time component by the count, and closes the
table with a totals row.  The external prettyTime and table calls are kept
at the data level through the Cell type. -/
def formatStats (getDescription : String → String → String)
    (allStats : List (String × List (String × ProfileRecord))) : List StatsTable :=
  allStats.map fun cat =>
    let category := cat.1
    let stats := cat.2
    let totalRequests := (stats.map fun p => p.2.count).sum
    let totalTime0 := (stats.map fun p => p.2.time.1).sum
    let totalTime1 := (stats.map fun p => p.2.time.2).sum
    let header := [Cell.text (startCase category), Cell.text "Requests", Cell.text "Time",
      Cell.text "Time/Request", Cell.text "Description"]
    let itemRows := stats.map fun p =>
      let item := p.1
      let stat := p.2
      [Cell.text item,
       if stat.count = 0 then Cell.text "-" else Cell.natNum stat.count,
       Cell.time (JsNum.num stat.time.1, JsNum.num stat.time.2),
       Cell.time (jsDiv (JsNum.num stat.time.1) (JsNum.num stat.count),
                  jsDiv (JsNum.num stat.time.2) (JsNum.num stat.count)),
       Cell.text (getDescription category item)]
    { title := "Stats by " ++ startCase category
      rows := header :: (itemRows ++
        [[Cell.text "Total", Cell.natNum totalRequests,
          Cell.time (JsNum.num totalTime0, JsNum.num totalTime1),
          Cell.text "", Cell.text ""]]) }

/-! ## Plugin controller : data model -/

/-- Recognized options of a plugin instance.  The done option is a callback
or null in the source; only its presence matters here. -/
structure Options where
  name : String
  color : String
  profile : Bool
  compiledIn : Bool
  hasDoneCallback : Bool
  minimal : Bool
  deriving DecidableEq, Repr

/-- The defaults object of the controller file; minimal defaults to the
environment flag env.minimalCLI, passed in here. -/
def defaults (minimalCLI : Bool) : Options :=
  { name := "webpack", color := "green", profile := false, compiledIn := true,
    hasDoneCallback := false, minimal := minimalCLI }

/-- The opaque webpack stats object stored on a slot by the done hook. -/
abbrev WStats := Nat

/-- One slot of the shared progress state.  Fields the source adds or
deletes dynamically (progress, msg, details, request, start, stats) are
options, none standing for the absent JavaScript property. -/
structure SlotState where
  isRunning : Bool
  color : String
  profileEnabled : Bool
  progress : Option Int
  msg : Option String
  details : Option (List String)
  request : Option ParsedRequest
  start : Option Nat
  stats : Option WStats
  deriving DecidableEq, Repr

/-- The slot the constructor installs in the shared state: isRunning false,
the configured color, and a profile accumulator exactly when profiling is
enabled. -/
def initialSlot (o : Options) : SlotState :=
  { isRunning := false, color := o.color, profileEnabled := o.profile,
    progress := none, msg := none, details := none, request := none,
    start := none, stats := none }

/-- Observable side effects of the controller: consola log lines, the
log-update clear, the forwarding of a request to the profile accumulator,
the throttled render scheduling, and the two parts of the completion
handling (stats report write and user done callback). -/
inductive Effect where
  | infoCompiling (name : String)
  | successCompiled (name : String) (elapsed : Nat)
  | successCompiledIn (name : String) (elapsed : Nat)
  | clearOutput
  | profileRequest (r : ParsedRequest)
  | renderScheduled
  | statsReport
  | doneCallback
  deriving DecidableEq, Repr

/-- Which branch of the wasRunning/isRunning edge check ran. -/
inductive TransKind where
  | started
  | finished
  | noTrans
  deriving DecidableEq, Repr

/-- Result of one updateProgress call: the new slot state, the transition
branch taken, and the effects emitted, in order. -/
structure StepResult where
  state : SlotState
  kind : TransKind
  effects : List Effect
  deriving DecidableEq, Repr

/-! ## Plugin controller : updateProgress -/

/-- Embedding of WebpackBarPlugin.updateProgress.  percent is the float the
bundler reports (a rational here; every percent considered below makes
percent * 100 exact in double precision, so the floor agrees with the float
computation); now models the process.hrtime clock reading at this event.
The slot first receives the display fields by Object.assign - details,
progress, msg (emptied unless running and non-empty), the parsed request
and the new isRunning - then the started and finished branches run on the
wasRunning/isRunning edge, then the request is forwarded to the profile
accumulator when profiling is enabled and a throttled render is scheduled. -/
def updateProgress (o : Options) (now : Nat) (st : SlotState)
    (percent : ℚ) (msg : String) (details : List String) : StepResult :=
  let progress : Int := ⌊percent * 100⌋
  let isRunning : Bool := decide (progress < 100)
  let wasRunning : Bool := st.isRunning
  let request := parseRequest details[2]?
  let st1 : SlotState :=
    { st with
      details := some details
      progress := some progress
      msg := some (if isRunning && !(msg == "") then msg else "")
      request := some request
      isRunning := isRunning }
  let tail : List Effect :=
    (if o.profile then [Effect.profileRequest request] else []) ++ [Effect.renderScheduled]
  if !wasRunning && isRunning then
    { state := { st1 with stats := none, start := some now }
      kind := TransKind.started
      effects := (if o.minimal then [Effect.infoCompiling o.name] else []) ++ tail }
  else if wasRunning && !isRunning then
    let time := now - st1.start.getD 0
    { state := { st1 with start := none }
      kind := TransKind.finished
      effects := (if o.minimal then [Effect.successCompiled o.name time]
        else Effect.clearOutput ::
          (if o.compiledIn then [Effect.successCompiledIn o.name time] else [])) ++ tail }
  else
    { state := st1, kind := TransKind.noTrans, effects := tail }

/-- One progress event fed to a controller instance. -/
structure PEvent where
  now : Nat
  percent : ℚ
  msg : String
  details : List String

/-- Feed a list of progress events through updateProgress, collecting every
step result. -/
def runEvents (o : Options) : SlotState → List PEvent → List StepResult
  | _, [] => []
  | st, e :: es =>
    let r := updateProgress o e.now st e.percent e.msg e.details
    r :: runEvents o r.state es

/-- Bool test selecting the started notification among effects. -/
def isStartedNotif : Effect → Bool
  | Effect.infoCompiling _ => true
  | _ => false

/-- Bool test selecting the finished notification among effects. -/
def isFinishedNotif : Effect → Bool
  | Effect.successCompiled _ _ => true
  | _ => false

/-! ## Plugin controller : completion hook -/

/-- Embedding of hasRunning from the controller file: the source finds a
slot object with a truthy isRunning among the values of the shared state;
an object being always truthy, this is an existence test. -/
def hasRunning (ss : List (String × SlotState)) : Bool :=
  ss.any fun p => p.2.isRunning

/-- The assignment this.state.stats = stats performed by the done hook on
the slot of the finishing instance. -/
def assignStats (name : String) (stats : WStats) (ss : List (String × SlotState)) :
    List (String × SlotState) :=
  ss.map fun p => if p.1 == name then (p.1, { p.2 with stats := some stats }) else p

/-- Effects of the done() method: the stats report write when profiling is
enabled, then the user callback when one was configured. -/
def doneEffects (o : Options) : List Effect :=
  (if o.profile then [Effect.statsReport] else []) ++
  (if o.hasDoneCallback then [Effect.doneCallback] else [])

/-- Embedding of the done hook installed by WebpackBarPlugin.apply: store
the stats on the own slot, and when no slot of the shared state is running,
clear the live output and run done().  The middle component records whether
the completion branch ran. -/
def hookDone (o : Options) (ss : List (String × SlotState)) (stats : WStats) :
    List (String × SlotState) × Bool × List Effect :=
  if hasRunning (assignStats o.name stats ss) then
    (assignStats o.name stats ss, false, [])
  else
    (assignStats o.name stats ss, true, Effect.clearOutput :: doneEffects o)

/-! ## Example values used by concrete instantiations -/

/-- Concrete options used by witnesses: a client instance with default
flags and live rendering. -/
def exOptions : Options :=
  { name := "client", color := "green", profile := false, compiledIn := true,
    hasDoneCallback := false, minimal := false }

/-- Concrete options in minimal mode, for the notification witnesses. -/
def exOptionsMinimal : Options :=
  { name := "client", color := "green", profile := false, compiledIn := true,
    hasDoneCallback := false, minimal := true }

/-- A slot that has finished a build: isRunning false, progress 100. -/
def exSlotDone : SlotState :=
  { isRunning := false, color := "green", profileEnabled := false,
    progress := some 100, msg := some "", details := some [], request := none,
    start := none, stats := none }

/-- A slot still running at fifty percent. -/
def exSlotRunning : SlotState :=
  { isRunning := true, color := "yellow", profileEnabled := false,
    progress := some 50, msg := some "building", details := some [], request := none,
    start := some 1, stats := none }

/-- Row that formatStats produces for a single item with count zero and
the given time pair: the first item row of the single rendered table. -/
def zeroCountRow (gd : String → String → String) (cat item : String) (t0 t1 : Nat) :
    List Cell :=
  ((formatStats gd [(cat, [(item, { count := 0, time := (t0, t1) })])]).headD
    { title := "", rows := [] }).rows.getD 1 []

/-! ## Helper lemmas about the bar renderer -/

lemma range_map_ite {α : Type} (a b : α) (k n : ℕ) :
    (List.range n).map (fun i => if i < k then a else b) =
      List.replicate (min k n) a ++ List.replicate (n - min k n) b := by
  induction n with
  | zero => simp
  | succ n ih =>
    rw [List.range_succ, List.map_append, ih]
    by_cases h : n < k
    · have h1 : min k n = n := by omega
      have h2 : min k (n + 1) = n + 1 := by omega
      simp [h1, h2, h, List.replicate_succ']
    · have h1 : min k n = k := by omega
      have h2 : min k (n + 1) = k := by omega
      have h3 : n + 1 - k = (n - k) + 1 := by omega
      simp [h1, h2, h, h3, List.replicate_succ']

lemma range_countP_min (k n : ℕ) :
    (List.range n).countP (fun i => decide (i < k)) = min k n := by
  induction n with
  | zero => simp
  | succ n ih =>
    rw [List.range_succ, List.countP_append, ih]
    by_cases h : n < k <;> simp [List.countP_cons, h] <;> omega

lemma bar_cond_iff (i p : ℕ) :
    ((i : ℚ) < (p : ℚ) * ((25 : ℚ) / 100)) ↔ i < (p * 25 + 99) / 100 := by
  rw [show ((25 : ℚ) / 100) = 1 / 4 by norm_num, mul_one_div,
    lt_div_iff₀ (by norm_num : (0 : ℚ) < 4)]
  norm_cast
  omega

lemma renderBar_eq (p : ℕ) (c : String) :
    renderBar p c =
      List.replicate (min ((p * 25 + 99) / 100) 25) (fgCell c) ++
        List.replicate (25 - min ((p * 25 + 99) / 100) 25) bgCell := by
  have hmap : (List.range 25).map
      (fun (i : Nat) => if (i : ℚ) < (p : ℚ) * ((25 : ℚ) / 100) then fgCell c else bgCell) =
      (List.range 25).map (fun i => if i < (p * 25 + 99) / 100 then fgCell c else bgCell) := by
    refine List.map_congr_left fun i _ => ?_
    rw [if_congr (bar_cond_iff i p) rfl rfl]
  rw [renderBar, BAR_LENGTH]
  simp only [Nat.cast_ofNat]
  rw [hmap, range_map_ite]

lemma barFgCount_eq (p : ℕ) : barFgCount p = min ((p * 25 + 99) / 100) 25 := by
  rw [barFgCount, BAR_LENGTH]
  simp only [Nat.cast_ofNat]
  rw [List.countP_congr (fun i _ => ?_), range_countP_min ((p * 25 + 99) / 100) 25]
  simp only [decide_eq_true_eq]
  exact bar_cond_iff i p


/-! ## Helper lemmas about strings, integers and division -/

lemma string_length_zero_iff (s : String) : s.length = 0 ↔ s = "" := by
  obtain ⟨data⟩ := s
  constructor
  · intro h
    have hd : data = [] := by simpa [String.length] using h
    subst hd; rfl
  · intro h; rw [h]; rfl

lemma NEXT_length : NEXT.length = 3 := rfl

lemma dots_length : ("..." : String).length = 3 := rfl

lemma mk_length (l : List Char) : (String.mk l).length = l.length := rfl

lemma toNat_max_zero (a : Int) : (max a 0).toNat = a.toNat := by
  rcases le_total 0 a with h | h
  · rw [max_eq_left h]
  · rw [max_eq_right h]; omega

lemma jsDiv_nat_zero (t : Nat) :
    jsDiv (JsNum.num (t : ℚ)) (JsNum.num 0) = if t = 0 then JsNum.nan else JsNum.inf := by
  rcases Nat.eq_zero_or_pos t with h | h
  · simp [jsDiv, h]
  · have h0 : t ≠ 0 := by omega
    have hc : ((t : ℚ)) ≠ 0 := Nat.cast_ne_zero.mpr h0
    have hp : (0 : ℚ) < (t : ℚ) := by exact_mod_cast h
    simp [jsDiv, hc, hp, h0]

lemma floor_percent_0 : (⌊((0 : ℚ)) * 100⌋ : ℤ) = 0 := by norm_num

lemma floor_percent_30 : (⌊((3 : ℚ) / 10) * 100⌋ : ℤ) = 30 := by norm_num

lemma floor_percent_60 : (⌊((3 : ℚ) / 5) * 100⌋ : ℤ) = 60 := by norm_num

lemma floor_percent_100 : (⌊((1 : ℚ)) * 100⌋ : ℤ) = 100 := by norm_num

/-! ## Claims about the completion hook -/

/-- C1: for every shared state and every completion check run by the done
hook of one instance, the completion branch (output clear, stats report,
user callback) is not taken when some slot still has isRunning true, and it
is taken exactly when no slot of the shared state is running. -/
theorem claim_C1 (o : Options) (ss : List (String × SlotState)) (stats : WStats) :
    ((∃ p ∈ (hookDone o ss stats).1, p.2.isRunning = true) → (hookDone o ss stats).2.1 = false)
    ∧ ((hookDone o ss stats).2.1 = true ↔
        ∀ p ∈ (hookDone o ss stats).1, p.2.isRunning = false) := by
  cases h : hasRunning (assignStats o.name stats ss) with
  | true =>
    simp only [hookDone, h, if_true]
    refine ⟨fun _ => trivial, ?_⟩
    constructor
    · intro hc; exact absurd hc (by simp)
    · intro hall
      obtain ⟨p, hp, hrun⟩ := List.any_eq_true.mp h
      exact absurd (hall p hp) (by simp [hrun])
  | false =>
    simp only [hookDone, h, Bool.false_eq_true, if_false]
    have hnone := List.any_eq_false.mp h
    refine ⟨?_, ?_⟩
    · rintro ⟨p, hp, hrun⟩
      exact absurd hrun (hnone p hp)
    · refine ⟨fun _ p hp => ?_, fun _ => trivial⟩
      have := hnone p hp
      simpa using this

/-- C1 witness: a finished client slot together with a still running server
slot; the completion check triggered for the client does not invoke the
completion handling. -/
theorem claim_C1_witness :
    (hookDone exOptions [("client", exSlotDone), ("server", exSlotRunning)] 3).2.1 = false :=
  (claim_C1 exOptions [("client", exSlotDone), ("server", exSlotRunning)] 3).1
    ⟨("server", exSlotRunning), by decide, rfl⟩

/-! ## Claims about parseRequest -/

/-- C2: evaluation of parseRequest of the embedded code at the failing
input of the claim.  The loaders come out as the claim states, but the file
keeps its full node_modules prefix: the delimiter the source builds from
path.delimiter is the PATH separator, which never occurs in a
slash-separated path, so the removeBefore step never strips anything. -/
theorem claim_C2_eval :
    parseRequest (some "a-loader!b-loader!path/to/node_modules/pkg/file.js?query") =
      { file := some "path/to/node_modules/pkg/file.js"
        loaders := ["a-loader", "b-loader"] } := by decide

/-- C7: parseRequest applied to null or undefined (none) and to the empty
string returns file null and an empty loaders list. -/
theorem claim_C7 :
    parseRequest none = { file := none, loaders := [] }
    ∧ parseRequest (some "") = { file := none, loaders := [] } := by decide

/-! ## Claims about formatRequest -/

/-- C9 counterexample: a ParsedRequest with the non-empty loaders list
containing one empty string and a null file.  The source tests the length
of the joined string, which is empty here, so it returns the empty string
instead of the separator followed by the word null predicted by the claim. -/
theorem claim_C9_cex :
    formatRequest { file := none, loaders := [""] } = ""
    ∧ formatRequest { file := none, loaders := [""] } ≠ jsJoin NEXT [""] ++ NEXT ++ "null" := by
  decide

/-- C9 (amended): for every loaders list that is non-empty and different
from the singleton empty-string list (equivalently, whose join with the
separator is non-empty), formatRequest with a null file returns the joined
loaders, the separator, and the four-character word null. -/
theorem claim_C9 (ls : List String) (h1 : ls ≠ []) (h2 : ls ≠ [""]) :
    formatRequest { file := none, loaders := ls } = jsJoin NEXT ls ++ NEXT ++ "null" := by
  have hne : (jsJoin NEXT ls).length ≠ 0 := by
    match ls, h1, h2 with
    | [x], _, h2 =>
      have hx : x ≠ "" := fun h => h2 (by rw [h])
      simp only [jsJoin]
      exact fun h => hx ((string_length_zero_iff x).mp h)
    | x :: y :: t, _, _ =>
      simp only [jsJoin, String.length_append, NEXT_length]
      omega
  simp [formatRequest, jsTemplateOptStr, hne]

/-- C9 witness: two loaders and a null file produce the joined chain, the
separator and the word null. -/
theorem claim_C9_witness :
    formatRequest { file := none, loaders := ["a-loader", "b-loader"] } =
      jsJoin NEXT ["a-loader", "b-loader"] ++ NEXT ++ "null" :=
  claim_C9 ["a-loader", "b-loader"] (by decide) (by decide)

/-! ## Claims about formatStats -/

/-- C3 counterexample: a single item with count zero.  The count column
receives the dash placeholder, but the average-time column receives the
value of the unguarded division, a NaN time pair handed to the renderer,
not a placeholder. -/
theorem claim_C3_cex :
    formatStats (fun _ _ => "") [("loaders", [("x", { count := 0, time := (0, 0) })])] =
      [{ title := "Stats by Loaders"
         rows := [[Cell.text "Loaders", Cell.text "Requests", Cell.text "Time",
                   Cell.text "Time/Request", Cell.text "Description"],
                  [Cell.text "x", Cell.text "-", Cell.time (JsNum.num 0, JsNum.num 0),
                   Cell.time (JsNum.nan, JsNum.nan), Cell.text ""],
                  [Cell.text "Total", Cell.natNum 0, Cell.time (JsNum.num 0, JsNum.num 0),
                   Cell.text "", Cell.text ""]] }]
    ∧ Cell.time (JsNum.nan, JsNum.nan) ≠ Cell.text "-" := by
  constructor
  · simp [formatStats, startCase, jsDiv]
  · decide

/-- C3 (amended): for every item whose count is zero, formatStats renders
the dash placeholder in the count column only; the average-time computation
divides by the zero count without a guard, so the average-time cell carries
a non-finite value (NaN for a zero time component, infinity otherwise) into
the output and is never a text placeholder. -/
theorem claim_C3 (gd : String → String → String) (cat item : String) (t0 t1 : Nat) :
    (zeroCountRow gd cat item t0 t1).getD 1 (Cell.text "?") = Cell.text "-"
    ∧ (zeroCountRow gd cat item t0 t1).getD 3 (Cell.text "?") =
        Cell.time ((if t0 = 0 then JsNum.nan else JsNum.inf),
                   (if t1 = 0 then JsNum.nan else JsNum.inf))
    ∧ ∀ s : String, (zeroCountRow gd cat item t0 t1).getD 3 (Cell.text "?") ≠ Cell.text s := by
  refine ⟨?_, ?_, ?_⟩
  · simp [zeroCountRow, formatStats]
  · simp [zeroCountRow, formatStats, jsDiv_nat_zero]
  · intro s
    simp [zeroCountRow, formatStats, jsDiv_nat_zero]

/-- C3 witness: the count cell of the zero-count row is the dash
placeholder at a concrete instantiation. -/
theorem claim_C3_witness :
    (zeroCountRow (fun _ _ => "") "loaders" "x" 0 0).getD 1 (Cell.text "?") = Cell.text "-" :=
  (claim_C3 (fun _ _ => "") "loaders" "x" 0 0).1

/-! ## Claims about renderBar -/

/-- C4 counterexample: at percent one the bar has one foreground cell,
while the floor formula of the claim predicts zero, so the rendered list
differs from the claimed shape. -/
theorem claim_C4_cex :
    renderBar 1 "green" ≠
      List.replicate (1 * 25 / 100) (fgCell "green") ++
        List.replicate (25 - 1 * 25 / 100) bgCell := by
  rw [renderBar_eq]
  norm_num
  decide

/-- C4 (amended): for every color and every percent up to one hundred,
renderBar returns exactly twenty-five cells, the leading ceiling of
percent times twenty-five over one hundred of them in the foreground
color and the rest in the neutral white background tone, with the solid
block glyph everywhere. -/
theorem claim_C4 (c : String) (p : Nat) (hp : p ≤ 100) :
    renderBar p c =
      List.replicate ((p * 25 + 99) / 100) (fgCell c) ++
        List.replicate (25 - (p * 25 + 99) / 100) bgCell
    ∧ (renderBar p c).length = 25 := by
  have hk : min ((p * 25 + 99) / 100) 25 = (p * 25 + 99) / 100 := by omega
  refine ⟨by rw [renderBar_eq, hk], ?_⟩
  rw [renderBar_eq, hk]
  simp [List.length_append]
  omega

/-- C4 witness: the amended shape at percent seven in green. -/
theorem claim_C4_witness :
    (renderBar 7 "green" =
      List.replicate ((7 * 25 + 99) / 100) (fgCell "green") ++
        List.replicate (25 - (7 * 25 + 99) / 100) bgCell)
    ∧ (renderBar 7 "green").length = 25 :=
  claim_C4 "green" 7 (by decide)

/-- C8: for every color the bar at percent zero has no foreground cell and
the bar at percent one hundred is entirely foreground; the foreground cell
count is monotone in the percent; and every bar is the foreground prefix
of that count followed by background cells. -/
theorem claim_C8 (c : String) :
    renderBar 0 c = List.replicate 25 bgCell
    ∧ renderBar 100 c = List.replicate 25 (fgCell c)
    ∧ (∀ p1 p2 : Nat, p1 ≤ p2 → barFgCount p1 ≤ barFgCount p2)
    ∧ ∀ p : Nat, renderBar p c =
        List.replicate (barFgCount p) (fgCell c) ++
          List.replicate (25 - barFgCount p) bgCell := by
  refine ⟨?_, ?_, ?_, ?_⟩
  · rw [renderBar_eq]; norm_num
  · rw [renderBar_eq]; norm_num
  · intro p1 p2 h
    rw [barFgCount_eq, barFgCount_eq]
    omega
  · intro p
    rw [renderBar_eq, barFgCount_eq]

/-- C8 witness: monotonicity applied at percents thirty and sixty. -/
theorem claim_C8_witness : barFgCount 30 ≤ barFgCount 60 :=
  (claim_C8 "green").2.2.1 30 60 (by decide)

/-! ## Claims about the updateProgress state machine -/

/-- C5: feeding the percents zero, three tenths, three fifths and one to a
fresh slot takes the started branch exactly on the first event and the
finished branch exactly on the last, isRunning goes false, true, true,
true, false, and in minimal mode exactly one started log line and exactly
one finished log line are emitted over the whole sequence. -/
theorem claim_C5 (o : Options) (t1 t2 t3 t4 : Nat) (m1 m2 m3 m4 : String)
    (d1 d2 d3 d4 : List String) :
    let rs := runEvents o (initialSlot o)
      [⟨t1, 0, m1, d1⟩, ⟨t2, 3 / 10, m2, d2⟩, ⟨t3, 3 / 5, m3, d3⟩, ⟨t4, 1, m4, d4⟩]
    (initialSlot o).isRunning = false
    ∧ rs.map (fun r => r.state.isRunning) = [true, true, true, false]
    ∧ rs.map (fun r => r.kind) =
        [TransKind.started, TransKind.noTrans, TransKind.noTrans, TransKind.finished]
    ∧ (o.minimal = true →
        ((rs.map fun r => r.effects).flatten.countP isStartedNotif = 1
         ∧ (rs.map fun r => r.effects).flatten.countP isFinishedNotif = 1)) := by
  intro rs
  refine ⟨rfl, ?_, ?_, ?_⟩
  · simp [rs, runEvents, updateProgress, initialSlot,
      floor_percent_0, floor_percent_30, floor_percent_60, floor_percent_100]
  · simp [rs, runEvents, updateProgress, initialSlot,
      floor_percent_0, floor_percent_30, floor_percent_60, floor_percent_100]
  · intro hm
    cases hprof : o.profile <;>
      simp [rs, runEvents, updateProgress, initialSlot, hm, hprof,
        floor_percent_0, floor_percent_30, floor_percent_60, floor_percent_100,
        isStartedNotif, isFinishedNotif, List.countP_cons, List.countP_append]

/-- C5 witness: the notification counts at a concrete minimal-mode run. -/
theorem claim_C5_witness :
    ((runEvents exOptionsMinimal (initialSlot exOptionsMinimal)
        [⟨10, 0, "a", []⟩, ⟨20, 3 / 10, "b", []⟩, ⟨30, 3 / 5, "c", []⟩,
         ⟨40, 1, "d", []⟩]).map fun r => r.effects).flatten.countP isStartedNotif = 1
    ∧ ((runEvents exOptionsMinimal (initialSlot exOptionsMinimal)
        [⟨10, 0, "a", []⟩, ⟨20, 3 / 10, "b", []⟩, ⟨30, 3 / 5, "c", []⟩,
         ⟨40, 1, "d", []⟩]).map fun r => r.effects).flatten.countP isFinishedNotif = 1 :=
  (claim_C5 exOptionsMinimal 10 20 30 40 "a" "b" "c" "d" [] [] [] []).2.2.2 rfl

/-- C6 counterexample: a duplicate one hundred percent event carries the
message building, but the slot message is overwritten with the empty
string, not with the payload message, because the slot is not running. -/
theorem claim_C6_cex :
    (updateProgress exOptions 5 exSlotDone 1 "building" ["x", "y", "z"]).state.msg ≠
      some "building" := by
  simp [updateProgress, floor_percent_100, exOptions, exSlotDone]

/-- C6 (amended): a further percent-one event on a slot that is not
running takes no transition branch, leaves start and stats untouched,
emits nothing beyond the profile forwarding and the render scheduling, and
overwrites progress, details and request from the payload while the
message field is overwritten with the empty string. -/
theorem claim_C6 (o : Options) (now : Nat) (st : SlotState) (msg : String)
    (details : List String) (h : st.isRunning = false) :
    (updateProgress o now st 1 msg details).kind = TransKind.noTrans
    ∧ (updateProgress o now st 1 msg details).state.start = st.start
    ∧ (updateProgress o now st 1 msg details).state.stats = st.stats
    ∧ (updateProgress o now st 1 msg details).effects =
        (if o.profile then [Effect.profileRequest (parseRequest details[2]?)] else []) ++
          [Effect.renderScheduled]
    ∧ (updateProgress o now st 1 msg details).state.progress = some 100
    ∧ (updateProgress o now st 1 msg details).state.details = some details
    ∧ (updateProgress o now st 1 msg details).state.request = some (parseRequest details[2]?)
    ∧ (updateProgress o now st 1 msg details).state.msg = some "" := by
  simp [updateProgress, floor_percent_100, h]

/-- C6 witness: the amended behaviour at a concrete finished slot and a
concrete duplicate completion event. -/
theorem claim_C6_witness :
    (updateProgress exOptions 5 exSlotDone 1 "building" ["x", "y", "z"]).kind = TransKind.noTrans
    ∧ (updateProgress exOptions 5 exSlotDone 1 "building" ["x", "y", "z"]).state.start =
        exSlotDone.start
    ∧ (updateProgress exOptions 5 exSlotDone 1 "building" ["x", "y", "z"]).state.stats =
        exSlotDone.stats
    ∧ (updateProgress exOptions 5 exSlotDone 1 "building" ["x", "y", "z"]).effects =
        (if exOptions.profile then
          [Effect.profileRequest (parseRequest (["x", "y", "z"][2]?))] else []) ++
          [Effect.renderScheduled]
    ∧ (updateProgress exOptions 5 exSlotDone 1 "building" ["x", "y", "z"]).state.progress =
        some 100
    ∧ (updateProgress exOptions 5 exSlotDone 1 "building" ["x", "y", "z"]).state.details =
        some ["x", "y", "z"]
    ∧ (updateProgress exOptions 5 exSlotDone 1 "building" ["x", "y", "z"]).state.request =
        some (parseRequest (["x", "y", "z"][2]?))
    ∧ (updateProgress exOptions 5 exSlotDone 1 "building" ["x", "y", "z"]).state.msg = some "" :=
  claim_C6 exOptions 5 exSlotDone "building" ["x", "y", "z"] rfl

/-! ## Claims about ellipsisLeft -/

/-- C10 counterexample: the string abc with width three is longer than
width minus three, yet the result keeps only the final character after the
dots, not the last four characters predicted by the claim, because the
negative substr start is re-read from the end of the string. -/
theorem claim_C10_cex :
    ellipsisLeft "abc" 3 = "...c" ∧ ellipsisLeft "abc" 3 ≠ "...abc" := by decide

/-- C10 (amended): the string is returned unchanged exactly when its
length is at most the width minus three, over the integers.  Otherwise,
when the length is at least width plus one, the result is the three dots
followed by the last width-plus-one characters and has length width plus
four; when the length is below width plus one, the negative substr start
counts from the end of the string, so the result is the three dots
followed by the suffix starting at twice the length minus width minus one
(clamped at zero), with the corresponding shorter length. -/
theorem claim_C10 (str : String) (n : Nat) :
    ((str.length : Int) ≤ (n : Int) - 3 → ellipsisLeft str n = str)
    ∧ ((n : Int) - 3 < (str.length : Int) →
        (str.length ≥ n + 1 →
          ellipsisLeft str n = "..." ++ String.mk (str.data.drop (str.length - (n + 1)))
          ∧ (ellipsisLeft str n).length = n + 4)
        ∧ (str.length < n + 1 →
          ellipsisLeft str n = "..." ++ String.mk (str.data.drop (2 * str.length - (n + 1)))
          ∧ (ellipsisLeft str n).length = 3 + (str.length - (2 * str.length - (n + 1))))) := by
  constructor
  · intro h
    rw [ellipsisLeft, if_pos h]
  · intro h
    have hbr : ¬((str.length : Int) ≤ (n : Int) - 3) := by omega
    constructor
    · intro hlen
      have hpos : ¬((str.length : Int) - (n : Int) - 1 < 0) := by omega
      have hidx : ((str.length : Int) - (n : Int) - 1).toNat = str.length - (n + 1) := by omega
      have heq : ellipsisLeft str n =
          "..." ++ String.mk (str.data.drop (str.length - (n + 1))) := by
        rw [ellipsisLeft, if_neg hbr]
        simp only [jsSubstrFrom, if_neg hpos, hidx]
      refine ⟨heq, ?_⟩
      rw [heq, String.length_append, dots_length, mk_length, List.length_drop]
      have hdl : str.data.length = str.length := rfl
      omega
    · intro hlen
      have hneg : ((str.length : Int) - (n : Int) - 1 < 0) := by omega
      have hidx : (max ((str.length : Int) + ((str.length : Int) - (n : Int) - 1)) 0).toNat =
          2 * str.length - (n + 1) := by
        rw [toNat_max_zero]; omega
      have heq : ellipsisLeft str n =
          "..." ++ String.mk (str.data.drop (2 * str.length - (n + 1))) := by
        rw [ellipsisLeft, if_neg hbr]
        simp only [jsSubstrFrom, if_pos hneg, hidx]
      refine ⟨heq, ?_⟩
      rw [heq, String.length_append, dots_length, mk_length, List.length_drop]
      rfl

/-- C10 witness: a ten-character string at width five falls in the long
case, giving the dots plus the last six characters, of length nine. -/
theorem claim_C10_witness :
    (ellipsisLeft "abcdefghij" 5 =
      "..." ++ String.mk ("abcdefghij".data.drop ("abcdefghij".length - (5 + 1)))
    ∧ (ellipsisLeft "abcdefghij" 5).length = 5 + 4) :=
  ((claim_C10 "abcdefghij" 5).2 (by decide)).1 (by decide)
